import Mathlib

/-!
Shallow embedding of `lops/utils/tapers.py`: the four taper-construction
functions `hanningtaper`, `cosinetaper`, `taper2d` and `taper3d`.
Numeric arrays become `List ℝ` (resp. nested lists for 2D/3D), the
`ValueError` raised on an invalid `ntap` becomes an `Except` error value,
and the optional matplotlib side effect becomes an explicit list of
emitted plot commands returned alongside the array.
-/

namespace Tapers

/-- Payload of the `ValueError` raised by `hanningtaper`: the offending
`ntap` and the maximum permissible value reported in the message
(`nmask/2` for even `nmask`, `(nmask-1)/2` for odd). -/
structure InvalidParameter where
  ntap : ℕ
  ntap_min : ℕ
  deriving DecidableEq, Repr

/-- Semantics of `numpy.hanning M`: the empty array for `M ≤ 0`
(`M = 0` here since sizes are naturals), the singleton `[1]` for `M = 1`,
and otherwise the `M`-point symmetric Hann window
`w[n] = 0.5 - 0.5 cos (2 π n / (M-1))`. -/
noncomputable def npHanning (M : ℕ) : List ℝ :=
  if M = 1 then [1]
  else (List.range M).map (fun n : ℕ =>
    0.5 - 0.5 * Real.cos (2 * Real.pi * (n : ℝ) / ((M : ℝ) - 1)))

/-- Embedding of `hanningtaper(nmask, ntap)`: validate `ntap`, then
concatenate the first `ntap` samples of a `(2*ntap-1)`-point Hann window,
`nmask - 2*ntap` ones, and the flipped rising edge. -/
noncomputable def hanningtaper (nmask ntap : ℕ) : Except InvalidParameter (List ℝ) :=
  if 0 < ntap ∧ nmask / ntap < 2 then
    Except.error ⟨ntap, if nmask % 2 = 0 then nmask / 2 else (nmask - 1) / 2⟩
  else
    let han_win := npHanning (ntap * 2 - 1)
    let st_tpr := han_win.take ntap
    let mid_tpr := List.replicate (nmask - 2 * ntap) (1 : ℝ)
    let end_tpr := st_tpr.reverse
    Except.ok (st_tpr ++ mid_tpr ++ end_tpr)

/-- Embedding of `cosinetaper(nmask, square)`:
`taper[i] = (0.5 * (cos ((i - (nmask-1)/2) * π / ((nmask-1)/2)) + 1))^e`
with `e = 2` when `square` and `e = 1` otherwise. -/
noncomputable def cosinetaper (nmask : ℕ) (square : Bool) : List ℝ :=
  let exponent : ℕ := if square then 2 else 1
  (List.range nmask).map (fun i : ℕ =>
    (0.5 * (Real.cos (((i : ℝ) - ((nmask : ℝ) - 1) / 2) * Real.pi /
      (((nmask : ℝ) - 1) / 2)) + 1)) ^ exponent)

/-- The 1D-window dispatch shared by `taper2d` and `taper3d`:
`"hanning"` delegates to `hanningtaper`, `"cosine"` and `"cosinesquare"`
to `cosinetaper`, and any other tag yields an all-ones mask. -/
noncomputable def tpr1d (tapertype : String) (nmask ntap : ℕ) :
    Except InvalidParameter (List ℝ) :=
  if tapertype = "hanning" then hanningtaper nmask ntap
  else if tapertype = "cosine" then Except.ok (cosinetaper nmask false)
  else if tapertype = "cosinesquare" then Except.ok (cosinetaper nmask true)
  else Except.ok (List.replicate nmask (1 : ℝ))

/-- A matplotlib command emitted by the quickplot branches of
`taper2d` / `taper3d`. -/
inductive PlotCmd where
  | line1d (data : List ℝ) (title : String)
  | image2d (data : List (List ℝ)) (title : String)

/-- Embedding of `taper2d(nt, nmask, ntap, tapertype, plotflag)`: build the
1D window, tile it across `nt` columns (row `i` of the result is `nt`
copies of `tpr_1d[i]`), and, when `plotflag` is set, emit a line plot of
the 1D window titled "Taper". -/
noncomputable def taper2d (nt nmask ntap : ℕ) (tapertype : String) (plotflag : Bool) :
    Except InvalidParameter (List (List ℝ) × List PlotCmd) := do
  let tpr_1d ← tpr1d tapertype nmask ntap
  let tpr_2d := tpr_1d.map (fun v => List.replicate nt v)
  let effects := if plotflag then [PlotCmd.line1d tpr_1d "Taper"] else []
  return (tpr_2d, effects)

/-- An error escaping `taper3d`: either the `ValueError` propagated from
`hanningtaper`, or the `IndexError` raised by the quickplot branch when it
slices `tpr_3d[:, :, int(nt/2)]` on a size-`nt` third axis with
`int(nt/2)` out of range (that is, when `nt = 0`). -/
inductive TaperError where
  | invalid (err : InvalidParameter)
  | index

/-- Embedding of `taper3d(nt, (my, mx), (ty, tx), tapertype, plotflag)`:
build one 1D window per spatial axis, take their outer product
(`tpr_yx[y][x] = tpr_y[y] * tpr_x[x]`), and tile the 2D mask across `nt`
slices along the third axis. When `plotflag` is set, the source indexes
the middle slice `tpr_3d[:, :, int(nt/2)]` before plotting it: this
succeeds and emits the slice as an image exactly when `nt / 2 < nt`, and
raises `IndexError` otherwise (a size-`nt` axis indexed at `nt / 2`). -/
noncomputable def taper3d (nt : ℕ) (nmask ntap : ℕ × ℕ) (tapertype : String)
    (plotflag : Bool) :
    Except TaperError (List (List (List ℝ)) × List PlotCmd) :=
  match tpr1d tapertype nmask.1 ntap.1 with
  | Except.error e => Except.error (TaperError.invalid e)
  | Except.ok tpr_y =>
    match tpr1d tapertype nmask.2 ntap.2 with
    | Except.error e => Except.error (TaperError.invalid e)
    | Except.ok tpr_x =>
      let tpr_yx := tpr_y.map (fun vy => tpr_x.map (fun vx => vy * vx))
      let tpr_3d := tpr_yx.map (fun row => row.map (fun v => List.replicate nt v))
      if plotflag then
        if nt / 2 < nt then
          Except.ok (tpr_3d, [PlotCmd.image2d
            (tpr_3d.map (fun plane => plane.map (fun cell => cell.getD (nt / 2) 0)))
            "Taper in y-x slice"])
        else Except.error TaperError.index
      else Except.ok (tpr_3d, [])

/-! Basic facts about the embedded numpy Hann window. -/

theorem npHanning_length (M : ℕ) : (npHanning M).length = M := by
  unfold npHanning
  split
  · simp_all
  · rw [List.length_map, List.length_range]

theorem npHanning_mem_unit {M : ℕ} {x : ℝ} (hx : x ∈ npHanning M) : 0 ≤ x ∧ x ≤ 1 := by
  unfold npHanning at hx
  split at hx
  · simp only [List.mem_singleton] at hx
    subst hx
    norm_num
  · simp only [List.mem_map, List.mem_range] at hx
    obtain ⟨n, -, rfl⟩ := hx
    constructor
    · nlinarith [Real.cos_le_one (2 * Real.pi * n / ((M : ℝ) - 1))]
    · nlinarith [Real.neg_one_le_cos (2 * Real.pi * n / ((M : ℝ) - 1))]

/-- On every valid input, `hanningtaper` returns its edge-middle-edge
concatenation. -/
theorem hanningtaper_eq_of_valid (nmask ntap : ℕ) (h : ¬(0 < ntap ∧ nmask / ntap < 2)) :
    hanningtaper nmask ntap = Except.ok
      ((npHanning (ntap * 2 - 1)).take ntap ++ List.replicate (nmask - 2 * ntap) 1 ++
        ((npHanning (ntap * 2 - 1)).take ntap).reverse) := by
  unfold hanningtaper
  rw [if_neg h]

theorem two_mul_ntap_le (nmask ntap : ℕ) (h2 : 2 ≤ nmask / ntap) : 2 * ntap ≤ nmask :=
  calc 2 * ntap ≤ nmask / ntap * ntap := Nat.mul_le_mul_right ntap h2
    _ ≤ nmask := Nat.div_mul_le_self nmask ntap

/-- Claim C1. For every `(nmask, ntap)` with `ntap > 0` and
`nmask / ntap ≥ 2`, `hanningtaper nmask ntap` succeeds with a list of
exactly `nmask` values, each in `[0, 1]`, whose first and last entries
equal the first sample of the `(2*ntap-1)`-point Hann window, and whose
entries at every index in `[ntap, nmask - ntap)` are exactly `1`. -/
theorem hanningtaper_valid_spec (nmask ntap : ℕ) (h1 : 0 < ntap) (h2 : 2 ≤ nmask / ntap) :
    ∃ l, hanningtaper nmask ntap = Except.ok l ∧
      l.length = nmask ∧
      (∀ x ∈ l, 0 ≤ x ∧ x ≤ 1) ∧
      l.head? = (npHanning (2 * ntap - 1)).head? ∧
      l.getLast? = (npHanning (2 * ntap - 1)).head? ∧
      (∀ i, ntap ≤ i → i < nmask - ntap → l.getD i 0 = 1) := by
  have hvalid : ¬(0 < ntap ∧ nmask / ntap < 2) := by omega
  have h2n : 2 * ntap ≤ nmask := two_mul_ntap_le nmask ntap h2
  set W := npHanning (ntap * 2 - 1) with hW
  have hWlen : W.length = ntap * 2 - 1 := npHanning_length _
  set st := W.take ntap with hst
  have hstlen : st.length = ntap := by
    rw [hst, List.length_take, hWlen]
    omega
  have hstne : st ≠ [] := by
    intro hnil
    rw [hnil] at hstlen
    simp at hstlen
    omega
  set mid := List.replicate (nmask - 2 * ntap) (1 : ℝ) with hmid
  refine ⟨st ++ mid ++ st.reverse, hanningtaper_eq_of_valid nmask ntap hvalid, ?_, ?_, ?_, ?_, ?_⟩
  · simp [hstlen, hmid]
    omega
  · intro x hx
    simp only [List.mem_append, List.mem_reverse] at hx
    rcases hx with (hx | hx) | hx
    · exact npHanning_mem_unit (List.mem_of_mem_take hx)
    · rw [hmid] at hx
      have := List.eq_of_mem_replicate hx
      subst this
      norm_num
    · exact npHanning_mem_unit (List.mem_of_mem_take hx)
  · rw [List.append_assoc, List.head?_append_of_ne_nil _ hstne, hst, hW]
    rw [Nat.mul_comm ntap 2]
    cases hcase : npHanning (2 * ntap - 1) with
    | nil => simp
    | cons a t =>
        cases ntap with
        | zero => omega
        | succ k => simp
  · have hrevne : st.reverse ≠ [] := by
      simpa using hstne
    rw [List.getLast?_append_of_ne_nil _ hrevne, List.getLast?_reverse, hst, hW]
    rw [Nat.mul_comm ntap 2]
    cases hcase : npHanning (2 * ntap - 1) with
    | nil => simp
    | cons a t =>
        cases ntap with
        | zero => omega
        | succ k => simp
  · intro i hi1 hi2
    have hfront : (st ++ mid).length = nmask - ntap := by
      simp [hstlen, hmid]
      omega
    rw [List.getD_eq_getElem?_getD, List.getElem?_append]
    rw [if_pos (by rw [hfront]; omega)]
    rw [List.getElem?_append_right (by rw [hstlen]; omega)]
    rw [hstlen, hmid, List.getElem?_replicate, if_pos (by omega)]
    rfl

/-- Witness for C1 at `nmask = 5`, `ntap = 2`. -/
theorem hanningtaper_valid_spec_witness :
    (0 < 2 ∧ 2 ≤ 5 / 2) ∧
    (∃ l, hanningtaper 5 2 = Except.ok l ∧
      l.length = 5 ∧
      (∀ x ∈ l, 0 ≤ x ∧ x ≤ 1) ∧
      l.head? = (npHanning (2 * 2 - 1)).head? ∧
      l.getLast? = (npHanning (2 * 2 - 1)).head? ∧
      (∀ i, 2 ≤ i → i < 5 - 2 → l.getD i 0 = 1)) :=
  ⟨⟨by decide, by decide⟩, hanningtaper_valid_spec 5 2 (by decide) (by decide)⟩

/-- Claim C2. For every `(nmask, ntap)` with `ntap ≥ 1` violating
`nmask / ntap ≥ 2`, `hanningtaper` fails with the invalid-parameter error
carrying the offending `ntap` and the maximum permissible value
(`nmask/2` for even `nmask`, `(nmask-1)/2` for odd), producing no list. -/
theorem hanningtaper_invalid_error (nmask ntap : ℕ) (h1 : 1 ≤ ntap) (h2 : nmask / ntap < 2) :
    hanningtaper nmask ntap =
      Except.error ⟨ntap, if nmask % 2 = 0 then nmask / 2 else (nmask - 1) / 2⟩ := by
  unfold hanningtaper
  rw [if_pos ⟨h1, h2⟩]

/-- Witness for C2 at `nmask = 3`, `ntap = 2`. -/
theorem hanningtaper_invalid_error_witness :
    (1 ≤ 2 ∧ 3 / 2 < 2) ∧
    hanningtaper 3 2 = Except.error ⟨2, 1⟩ :=
  ⟨⟨by decide, by decide⟩, by simpa using hanningtaper_invalid_error 3 2 (by decide) (by decide)⟩

/-- Claim C10. For every `nmask`, `hanningtaper nmask 0` raises no error:
the validation branch is skipped, both tapered edges are empty (the
requested Hann window is empty), and the result is exactly `nmask` ones. -/
theorem hanningtaper_zero_ntap (nmask : ℕ) :
    hanningtaper nmask 0 = Except.ok (List.replicate nmask (1 : ℝ)) := by
  unfold hanningtaper npHanning
  simp

/-! Facts about the cosine taper. -/

theorem cosinetaper_length (nmask : ℕ) (square : Bool) :
    (cosinetaper nmask square).length = nmask := by
  unfold cosinetaper
  rw [List.length_map, List.length_range]

theorem cosinetaper_getD (nmask : ℕ) (square : Bool) (i : ℕ) (hi : i < nmask) :
    (cosinetaper nmask square).getD i 0 =
      (0.5 * (Real.cos (((i : ℝ) - ((nmask : ℝ) - 1) / 2) * Real.pi /
        (((nmask : ℝ) - 1) / 2)) + 1)) ^ (if square then 2 else 1) := by
  unfold cosinetaper
  rw [List.getD_eq_getElem?_getD, List.getElem?_map, List.getElem?_range hi]
  rfl

theorem cosinetaper_mem_unit (nmask : ℕ) (square : Bool) :
    ∀ x ∈ cosinetaper nmask square, 0 ≤ x ∧ x ≤ 1 := by
  intro x hx
  simp only [cosinetaper, List.mem_map, List.mem_range] at hx
  obtain ⟨i, -, rfl⟩ := hx
  have hcos1 : Real.cos (((i : ℝ) - ((nmask : ℝ) - 1) / 2) * Real.pi /
      (((nmask : ℝ) - 1) / 2)) ≤ 1 := Real.cos_le_one _
  have hcos0 : -1 ≤ Real.cos (((i : ℝ) - ((nmask : ℝ) - 1) / 2) * Real.pi /
      (((nmask : ℝ) - 1) / 2)) := Real.neg_one_le_cos _
  have hv0 : (0 : ℝ) ≤ 0.5 * (Real.cos (((i : ℝ) - ((nmask : ℝ) - 1) / 2) * Real.pi /
      (((nmask : ℝ) - 1) / 2)) + 1) := by nlinarith
  have hv1 : 0.5 * (Real.cos (((i : ℝ) - ((nmask : ℝ) - 1) / 2) * Real.pi /
      (((nmask : ℝ) - 1) / 2)) + 1) ≤ 1 := by nlinarith
  exact ⟨pow_nonneg hv0 _, pow_le_one₀ hv0 hv1⟩

/-- Claim C5. For every `nmask ≥ 2` and index `i < nmask`,
`cosinetaper nmask square` has length `nmask` and its `i`-th value is
`(0.5 * (cos ((i - (nmask-1)/2) * π / ((nmask-1)/2)) + 1))^e` with
`e = 2` when `square` and `e = 1` otherwise; `cosinetaper` is a pure
function of its arguments. -/
theorem cosinetaper_formula (nmask : ℕ) (square : Bool) (i : ℕ)
    (h2 : 2 ≤ nmask) (hi : i < nmask) :
    (cosinetaper nmask square).length = nmask ∧
    (cosinetaper nmask square).getD i 0 =
      (0.5 * (Real.cos (((i : ℝ) - ((nmask : ℝ) - 1) / 2) * Real.pi /
        (((nmask : ℝ) - 1) / 2)) + 1)) ^ (if square then 2 else 1) :=
  ⟨cosinetaper_length nmask square, cosinetaper_getD nmask square i hi⟩

/-- Witness for C5 at `nmask = 3`, `square = false`, `i = 1`. -/
theorem cosinetaper_formula_witness :
    (2 ≤ 3 ∧ 1 < 3) ∧
    ((cosinetaper 3 false).length = 3 ∧
    (cosinetaper 3 false).getD 1 0 =
      (0.5 * (Real.cos (((1 : ℕ) - ((3 : ℕ) - 1 : ℝ) / 2) * Real.pi /
        (((3 : ℕ) - 1 : ℝ) / 2)) + 1)) ^ (if false then 2 else 1)) :=
  ⟨⟨by decide, by decide⟩, cosinetaper_formula 3 false 1 (by decide) (by decide)⟩

/-- Claim C6. For every `nmask ≥ 2`, the cosine-square taper is the
element-wise square of the plain cosine taper. -/
theorem cosinetaper_square_eq_sq (nmask : ℕ) (h2 : 2 ≤ nmask) :
    cosinetaper nmask true = (cosinetaper nmask false).map (fun x => x ^ 2) := by
  simp only [cosinetaper, List.map_map, if_true, if_false, Bool.false_eq_true]
  apply List.map_congr_left
  intro i _
  simp only [Function.comp_apply, pow_one]

/-- Witness for C6 at `nmask = 2`. -/
theorem cosinetaper_square_eq_sq_witness :
    2 ≤ 2 ∧ cosinetaper 2 true = (cosinetaper 2 false).map (fun x => x ^ 2) :=
  ⟨by decide, cosinetaper_square_eq_sq 2 (by decide)⟩

/-- Claim C7. For every `nmask ≥ 2`, the cosine taper is symmetric about
its center (`taper[i] = taper[nmask-1-i]` for every `i < nmask`), and for
odd `nmask` the value at the center index `(nmask-1)/2` is exactly `1`. -/
theorem cosinetaper_symm_center (nmask : ℕ) (h2 : 2 ≤ nmask) :
    (∀ i, i < nmask →
      (cosinetaper nmask false).getD i 0 =
        (cosinetaper nmask false).getD (nmask - 1 - i) 0) ∧
    (nmask % 2 = 1 → (cosinetaper nmask false).getD ((nmask - 1) / 2) 0 = 1) := by
  constructor
  · intro i hi
    have hj : nmask - 1 - i < nmask := by omega
    unfold cosinetaper
    rw [List.getD_eq_getElem?_getD, List.getElem?_map, List.getElem?_range hi,
        List.getD_eq_getElem?_getD, List.getElem?_map, List.getElem?_range hj]
    simp only [Option.map_some', Option.getD_some]
    have hcast : ((nmask - 1 - i : ℕ) : ℝ) = (nmask : ℝ) - 1 - (i : ℝ) := by
      have h' : nmask - 1 - i = nmask - (1 + i) := by omega
      rw [h', Nat.cast_sub (by omega)]
      push_cast
      ring
    rw [hcast]
    have harg : ((nmask : ℝ) - 1 - (i : ℝ) - ((nmask : ℝ) - 1) / 2) * Real.pi /
        (((nmask : ℝ) - 1) / 2) =
        -((((i : ℝ) - ((nmask : ℝ) - 1) / 2) * Real.pi / (((nmask : ℝ) - 1) / 2))) := by
      ring
    rw [harg, Real.cos_neg]
  · intro hodd
    have hc : (nmask - 1) / 2 < nmask := by omega
    unfold cosinetaper
    rw [List.getD_eq_getElem?_getD, List.getElem?_map, List.getElem?_range hc]
    have hcast : (((nmask - 1) / 2 : ℕ) : ℝ) = ((nmask : ℝ) - 1) / 2 := by
      obtain ⟨m, hm⟩ : ∃ m, nmask = 2 * m + 1 := ⟨nmask / 2, by omega⟩
      subst hm
      have he : (2 * m + 1 - 1) / 2 = m := by omega
      rw [he]
      push_cast
      ring
    simp only [Option.map_some', Option.getD_some, hcast]
    rw [sub_self, zero_mul, zero_div, Real.cos_zero]
    norm_num

/-- Witness for C7 at `nmask = 3`. -/
theorem cosinetaper_symm_center_witness :
    2 ≤ 3 ∧
    ((∀ i, i < 3 →
      (cosinetaper 3 false).getD i 0 = (cosinetaper 3 false).getD (3 - 1 - i) 0) ∧
    (3 % 2 = 1 → (cosinetaper 3 false).getD ((3 - 1) / 2) 0 = 1)) :=
  ⟨by decide, cosinetaper_symm_center 3 (by decide)⟩

/-! Helper lemmas for list indexing and the success case of `hanningtaper`. -/

theorem getD_map_lt {α β : Type} (l : List α) (f : α → β) (d : β) (y : ℕ)
    (hy : y < l.length) : (l.map f).getD y d = f (l.get ⟨y, hy⟩) := by
  rw [List.getD_eq_getElem?_getD, List.getElem?_map, List.getElem?_eq_getElem hy]
  rfl

theorem getD_replicate_lt {α : Type} (n k : ℕ) (a d : α) (hk : k < n) :
    (List.replicate n a).getD k d = a := by
  rw [List.getD_eq_getElem?_getD, List.getElem?_replicate, if_pos hk]
  rfl

/-- Column `j` of an `nt`-fold tiling of a 1D list recovers the list. -/
theorem tile_col (l : List ℝ) (nt j : ℕ) (hj : j < nt) :
    (l.map (fun v => List.replicate nt v)).map (fun row => row.getD j 0) = l := by
  rw [List.map_map]
  have hfun : ((fun row => List.getD row j 0) ∘ fun v : ℝ => List.replicate nt v) =
      fun v : ℝ => v := by
    funext v
    exact getD_replicate_lt nt j v 0 hj
  rw [hfun, List.map_id']

theorem hanningtaper_ok_length (nmask ntap : ℕ) (l : List ℝ)
    (h : hanningtaper nmask ntap = Except.ok l) : l.length = nmask := by
  by_cases hc : 0 < ntap ∧ nmask / ntap < 2
  · unfold hanningtaper at h
    rw [if_pos hc] at h
    exact absurd h (by simp)
  · rw [hanningtaper_eq_of_valid nmask ntap hc] at h
    simp only [Except.ok.injEq] at h
    subst h
    have h2 : 2 * ntap ≤ nmask := by
      rcases Nat.eq_zero_or_pos ntap with h0 | h0
      · omega
      · exact two_mul_ntap_le nmask ntap (by omega)
    simp only [List.length_append, List.length_take, List.length_reverse,
      List.length_replicate, npHanning_length]
    omega

theorem hanningtaper_ok_mem (nmask ntap : ℕ) (l : List ℝ)
    (h : hanningtaper nmask ntap = Except.ok l) : ∀ x ∈ l, 0 ≤ x ∧ x ≤ 1 := by
  by_cases hc : 0 < ntap ∧ nmask / ntap < 2
  · unfold hanningtaper at h
    rw [if_pos hc] at h
    exact absurd h (by simp)
  · rw [hanningtaper_eq_of_valid nmask ntap hc] at h
    simp only [Except.ok.injEq] at h
    subst h
    intro x hx
    simp only [List.mem_append, List.mem_reverse] at hx
    rcases hx with (hx | hx) | hx
    · exact npHanning_mem_unit (List.mem_of_mem_take hx)
    · rw [List.eq_of_mem_replicate hx]
      norm_num
    · exact npHanning_mem_unit (List.mem_of_mem_take hx)

/-! Dispatch equations for the shared 1D window selection. -/

theorem tpr1d_hanning (nmask ntap : ℕ) :
    tpr1d "hanning" nmask ntap = hanningtaper nmask ntap := by
  unfold tpr1d
  simp

theorem tpr1d_cosine (nmask ntap : ℕ) :
    tpr1d "cosine" nmask ntap = Except.ok (cosinetaper nmask false) := by
  unfold tpr1d
  simp

theorem tpr1d_cosinesquare (nmask ntap : ℕ) :
    tpr1d "cosinesquare" nmask ntap = Except.ok (cosinetaper nmask true) := by
  unfold tpr1d
  simp

theorem tpr1d_ok_mem (t : String) (nmask ntap : ℕ) (l : List ℝ)
    (h : tpr1d t nmask ntap = Except.ok l) : ∀ x ∈ l, 0 ≤ x ∧ x ≤ 1 := by
  unfold tpr1d at h
  split at h
  · exact hanningtaper_ok_mem nmask ntap l h
  · split at h
    · simp only [Except.ok.injEq] at h
      subst h
      exact cosinetaper_mem_unit nmask false
    · split at h
      · simp only [Except.ok.injEq] at h
        subst h
        exact cosinetaper_mem_unit nmask true
      · simp only [Except.ok.injEq] at h
        subst h
        intro x hx
        rw [List.eq_of_mem_replicate hx]
        norm_num

/-! Success and failure equations for `taper2d` and `taper3d`. -/

theorem taper2d_ok (nt nmask ntap : ℕ) (t : String) (pf : Bool) (l : List ℝ)
    (h : tpr1d t nmask ntap = Except.ok l) :
    taper2d nt nmask ntap t pf =
      Except.ok (l.map (fun v => List.replicate nt v),
        if pf then [PlotCmd.line1d l "Taper"] else []) := by
  unfold taper2d
  rw [h]
  rfl

theorem taper2d_err (nt nmask ntap : ℕ) (t : String) (pf : Bool) (err : InvalidParameter)
    (h : tpr1d t nmask ntap = Except.error err) :
    taper2d nt nmask ntap t pf = Except.error err := by
  unfold taper2d
  rw [h]
  rfl

theorem taper3d_ok_false (nt : ℕ) (nmask ntap : ℕ × ℕ) (t : String)
    (ly lx : List ℝ)
    (hy : tpr1d t nmask.1 ntap.1 = Except.ok ly)
    (hx : tpr1d t nmask.2 ntap.2 = Except.ok lx) :
    taper3d nt nmask ntap t false =
      Except.ok ((ly.map (fun vy => lx.map (fun vx => vy * vx))).map
        (fun row => row.map (fun v => List.replicate nt v)), []) := by
  unfold taper3d
  rw [hy, hx]
  rfl

theorem taper3d_ok_plot (nt : ℕ) (nmask ntap : ℕ × ℕ) (t : String)
    (ly lx : List ℝ)
    (hy : tpr1d t nmask.1 ntap.1 = Except.ok ly)
    (hx : tpr1d t nmask.2 ntap.2 = Except.ok lx)
    (hg : nt / 2 < nt) :
    taper3d nt nmask ntap t true =
      Except.ok ((ly.map (fun vy => lx.map (fun vx => vy * vx))).map
        (fun row => row.map (fun v => List.replicate nt v)),
        [PlotCmd.image2d (((ly.map (fun vy => lx.map (fun vx => vy * vx))).map
          (fun row => row.map (fun v => List.replicate nt v))).map
            (fun plane => plane.map (fun cell => cell.getD (nt / 2) 0)))
          "Taper in y-x slice"]) := by
  unfold taper3d
  rw [hy, hx]
  simp only [if_pos hg]
  rw [if_pos trivial]

theorem taper3d_err_index (nt : ℕ) (nmask ntap : ℕ × ℕ) (t : String)
    (ly lx : List ℝ)
    (hy : tpr1d t nmask.1 ntap.1 = Except.ok ly)
    (hx : tpr1d t nmask.2 ntap.2 = Except.ok lx)
    (hg : ¬ nt / 2 < nt) :
    taper3d nt nmask ntap t true = Except.error TaperError.index := by
  unfold taper3d
  rw [hy, hx]
  simp only [if_neg hg]
  rw [if_pos trivial]

theorem taper2d_ok_inv (nt nmask ntap : ℕ) (t : String) (pf : Bool)
    (m : List (List ℝ)) (e : List PlotCmd)
    (h : taper2d nt nmask ntap t pf = Except.ok (m, e)) :
    ∃ l, tpr1d t nmask ntap = Except.ok l ∧ m = l.map (fun v => List.replicate nt v) := by
  cases hl : tpr1d t nmask ntap with
  | error err =>
      rw [taper2d_err nt nmask ntap t pf err hl] at h
      exact absurd h (by simp)
  | ok l =>
      rw [taper2d_ok nt nmask ntap t pf l hl] at h
      simp only [Except.ok.injEq, Prod.mk.injEq] at h
      exact ⟨l, rfl, h.1.symm⟩

theorem taper3d_err_left (nt : ℕ) (nmask ntap : ℕ × ℕ) (t : String) (pf : Bool)
    (err : InvalidParameter) (h : tpr1d t nmask.1 ntap.1 = Except.error err) :
    taper3d nt nmask ntap t pf = Except.error (TaperError.invalid err) := by
  unfold taper3d
  rw [h]

theorem taper3d_err_right (nt : ℕ) (nmask ntap : ℕ × ℕ) (t : String) (pf : Bool)
    (err : InvalidParameter) (ly : List ℝ)
    (hy : tpr1d t nmask.1 ntap.1 = Except.ok ly)
    (h : tpr1d t nmask.2 ntap.2 = Except.error err) :
    taper3d nt nmask ntap t pf = Except.error (TaperError.invalid err) := by
  unfold taper3d
  rw [hy, h]

theorem taper3d_ok_inv (nt : ℕ) (nmask ntap : ℕ × ℕ) (t : String) (pf : Bool)
    (arr : List (List (List ℝ))) (e : List PlotCmd)
    (h : taper3d nt nmask ntap t pf = Except.ok (arr, e)) :
    ∃ ly lx, tpr1d t nmask.1 ntap.1 = Except.ok ly ∧
      tpr1d t nmask.2 ntap.2 = Except.ok lx ∧
      arr = (ly.map (fun vy => lx.map (fun vx => vy * vx))).map
        (fun row => row.map (fun v => List.replicate nt v)) := by
  cases hy : tpr1d t nmask.1 ntap.1 with
  | error err =>
      rw [taper3d_err_left nt nmask ntap t pf err hy] at h
      exact absurd h (by simp)
  | ok ly =>
      cases hx : tpr1d t nmask.2 ntap.2 with
      | error err =>
          rw [taper3d_err_right nt nmask ntap t pf err ly hy hx] at h
          exact absurd h (by simp)
      | ok lx =>
          cases pf with
          | false =>
              rw [taper3d_ok_false nt nmask ntap t ly lx hy hx] at h
              simp only [Except.ok.injEq, Prod.mk.injEq] at h
              exact ⟨ly, lx, rfl, rfl, h.1.symm⟩
          | true =>
              by_cases hg : nt / 2 < nt
              · rw [taper3d_ok_plot nt nmask ntap t ly lx hy hx hg] at h
                simp only [Except.ok.injEq, Prod.mk.injEq] at h
                exact ⟨ly, lx, rfl, rfl, h.1.symm⟩
              · rw [taper3d_err_index nt nmask ntap t ly lx hy hx hg] at h
                exact absurd h (by simp)

/-- Claim C4. Under `hanningtaper`'s precondition, `taper2d` with type
`"hanning"` returns a `(nmask, nt)`-shaped matrix whose every column
`j < nt` is identical to `hanningtaper nmask ntap`; the `"cosine"` and
`"cosinesquare"` types replicate `cosinetaper nmask false` resp.
`cosinetaper nmask true` across all `nt` columns. -/
theorem taper2d_columns (nt nmask ntap : ℕ) (h1 : 0 < ntap) (h2 : 2 ≤ nmask / ntap) :
    (∃ l m e, hanningtaper nmask ntap = Except.ok l ∧
        taper2d nt nmask ntap "hanning" false = Except.ok (m, e) ∧
        m.length = nmask ∧ (∀ row ∈ m, row.length = nt) ∧
        (∀ j, j < nt → m.map (fun row => row.getD j 0) = l)) ∧
    (∃ m e, taper2d nt nmask ntap "cosine" false = Except.ok (m, e) ∧
        ∀ j, j < nt → m.map (fun row => row.getD j 0) = cosinetaper nmask false) ∧
    (∃ m e, taper2d nt nmask ntap "cosinesquare" false = Except.ok (m, e) ∧
        ∀ j, j < nt → m.map (fun row => row.getD j 0) = cosinetaper nmask true) := by
  have hvalid : ¬(0 < ntap ∧ nmask / ntap < 2) := by omega
  refine ⟨?_, ?_, ?_⟩
  · obtain ⟨l, hok⟩ : ∃ l, hanningtaper nmask ntap = Except.ok l :=
      ⟨_, hanningtaper_eq_of_valid nmask ntap hvalid⟩
    refine ⟨l, _, _, hok, taper2d_ok nt nmask ntap "hanning" false l
      (by rw [tpr1d_hanning]; exact hok), ?_, ?_, ?_⟩
    · rw [List.length_map]
      exact hanningtaper_ok_length nmask ntap l hok
    · intro row hrow
      simp only [List.mem_map] at hrow
      obtain ⟨v, -, rfl⟩ := hrow
      exact List.length_replicate nt v
    · intro j hj
      exact tile_col l nt j hj
  · exact ⟨_, _, taper2d_ok nt nmask ntap "cosine" false _ (tpr1d_cosine nmask ntap),
      fun j hj => tile_col _ nt j hj⟩
  · exact ⟨_, _, taper2d_ok nt nmask ntap "cosinesquare" false _
      (tpr1d_cosinesquare nmask ntap),
      fun j hj => tile_col _ nt j hj⟩

/-- Witness for C4 at `nt = 3`, `nmask = 4`, `ntap = 2`. -/
theorem taper2d_columns_witness :
    (0 < 2 ∧ 2 ≤ 4 / 2) ∧
    ((∃ l m e, hanningtaper 4 2 = Except.ok l ∧
        taper2d 3 4 2 "hanning" false = Except.ok (m, e) ∧
        m.length = 4 ∧ (∀ row ∈ m, row.length = 3) ∧
        (∀ j, j < 3 → m.map (fun row => row.getD j 0) = l)) ∧
    (∃ m e, taper2d 3 4 2 "cosine" false = Except.ok (m, e) ∧
        ∀ j, j < 3 → m.map (fun row => row.getD j 0) = cosinetaper 4 false) ∧
    (∃ m e, taper2d 3 4 2 "cosinesquare" false = Except.ok (m, e) ∧
        ∀ j, j < 3 → m.map (fun row => row.getD j 0) = cosinetaper 4 true)) :=
  ⟨⟨by decide, by decide⟩, taper2d_columns 3 4 2 (by decide) (by decide)⟩

/-- Claim C3. Under `hanningtaper`'s precondition on each axis,
`taper3d nt (my, mx) (ty, tx) "hanning"` returns an array of shape
`(my, mx, nt)` whose entry `(y, x, k)` equals
`hanningtaper my ty [y] * hanningtaper mx tx [x]` for every `k < nt`;
in particular the array is constant along the third axis. -/
theorem taper3d_outer_product (nt my mx ty tx : ℕ)
    (h1y : 0 < ty) (h2y : 2 ≤ my / ty) (h1x : 0 < tx) (h2x : 2 ≤ mx / tx) :
    ∃ ly lx arr e, hanningtaper my ty = Except.ok ly ∧
      hanningtaper mx tx = Except.ok lx ∧
      taper3d nt (my, mx) (ty, tx) "hanning" false = Except.ok (arr, e) ∧
      arr.length = my ∧
      (∀ plane ∈ arr, plane.length = mx ∧ ∀ row ∈ plane, row.length = nt) ∧
      (∀ y x k, y < my → x < mx → k < nt →
        ((arr.getD y []).getD x []).getD k 0 = ly.getD y 0 * lx.getD x 0) := by
  obtain ⟨ly, hly⟩ : ∃ l, hanningtaper my ty = Except.ok l :=
    ⟨_, hanningtaper_eq_of_valid my ty (by omega)⟩
  obtain ⟨lx, hlx⟩ : ∃ l, hanningtaper mx tx = Except.ok l :=
    ⟨_, hanningtaper_eq_of_valid mx tx (by omega)⟩
  have hylen := hanningtaper_ok_length my ty ly hly
  have hxlen := hanningtaper_ok_length mx tx lx hlx
  refine ⟨ly, lx, _, _, hly, hlx,
    taper3d_ok_false nt (my, mx) (ty, tx) "hanning" ly lx
      (by rw [tpr1d_hanning]; exact hly) (by rw [tpr1d_hanning]; exact hlx),
    ?_, ?_, ?_⟩
  · rw [List.length_map, List.length_map, hylen]
  · intro plane hplane
    simp only [List.mem_map] at hplane
    obtain ⟨r, ⟨vy, -, rfl⟩, rfl⟩ := hplane
    constructor
    · rw [List.length_map, List.length_map, hxlen]
    · intro row hrow
      simp only [List.map_map, List.mem_map, Function.comp_apply] at hrow
      obtain ⟨vx, -, rfl⟩ := hrow
      exact List.length_replicate nt (vy * vx)
  · intro y x k hy hx hk
    rw [List.map_map]
    rw [getD_map_lt _ _ _ _ (by rw [hylen]; exact hy)]
    simp only [Function.comp_apply, List.map_map]
    rw [getD_map_lt _ _ _ _ (by rw [hxlen]; exact hx)]
    simp only [Function.comp_apply]
    rw [getD_replicate_lt _ _ _ _ hk]
    rw [List.getD_eq_getElem ly 0 (by rw [hylen]; exact hy),
      List.getD_eq_getElem lx 0 (by rw [hxlen]; exact hx)]
    rfl

/-- Witness for C3 at `nt = 2`, `nmask = (4, 5)`, `ntap = (2, 2)`. -/
theorem taper3d_outer_product_witness :
    (0 < 2 ∧ 2 ≤ 4 / 2 ∧ 2 ≤ 5 / 2) ∧
    (∃ ly lx arr e, hanningtaper 4 2 = Except.ok ly ∧
      hanningtaper 5 2 = Except.ok lx ∧
      taper3d 2 (4, 5) (2, 2) "hanning" false = Except.ok (arr, e) ∧
      arr.length = 4 ∧
      (∀ plane ∈ arr, plane.length = 5 ∧ ∀ row ∈ plane, row.length = 2) ∧
      (∀ y x k, y < 4 → x < 5 → k < 2 →
        ((arr.getD y []).getD x []).getD k 0 = ly.getD y 0 * lx.getD x 0)) :=
  ⟨⟨by decide, by decide, by decide⟩,
    taper3d_outer_product 2 4 5 2 2 (by decide) (by decide) (by decide) (by decide)⟩

/-- Claim C8. Under the stated preconditions, every value of every array
returned by `hanningtaper`, `cosinetaper`, `taper2d` and `taper3d` lies in
the closed interval `[0, 1]`. -/
theorem taper_values_unit (nmy nty nmx ntx : ℕ)
    (h1y : 0 < nty) (h2y : 2 ≤ nmy / nty) (h1x : 0 < ntx) (h2x : 2 ≤ nmx / ntx) :
    (∀ l, hanningtaper nmy nty = Except.ok l → ∀ x ∈ l, 0 ≤ x ∧ x ≤ 1) ∧
    (∀ square, ∀ x ∈ cosinetaper nmy square, 0 ≤ x ∧ x ≤ 1) ∧
    (∀ nt t pf m e, taper2d nt nmy nty t pf = Except.ok (m, e) →
        ∀ row ∈ m, ∀ x ∈ row, 0 ≤ x ∧ x ≤ 1) ∧
    (∀ nt t pf arr e, taper3d nt (nmy, nmx) (nty, ntx) t pf = Except.ok (arr, e) →
        ∀ plane ∈ arr, ∀ row ∈ plane, ∀ x ∈ row, 0 ≤ x ∧ x ≤ 1) := by
  refine ⟨fun l h => hanningtaper_ok_mem nmy nty l h,
    fun square => cosinetaper_mem_unit nmy square, ?_, ?_⟩
  · intro nt t pf m e h row hrow x hx
    obtain ⟨l, hl, rfl⟩ := taper2d_ok_inv nt nmy nty t pf m e h
    simp only [List.mem_map] at hrow
    obtain ⟨v, hv, rfl⟩ := hrow
    rw [List.eq_of_mem_replicate hx]
    exact tpr1d_ok_mem t nmy nty l hl v hv
  · intro nt t pf arr e h plane hplane row hrow x hx
    obtain ⟨ly, lx, hly, hlx, rfl⟩ := taper3d_ok_inv nt (nmy, nmx) (nty, ntx) t pf arr e h
    simp only [List.mem_map] at hplane
    obtain ⟨r, ⟨vy, hvy, rfl⟩, rfl⟩ := hplane
    simp only [List.map_map, List.mem_map, Function.comp_apply] at hrow
    obtain ⟨vx, hvx, rfl⟩ := hrow
    rw [List.eq_of_mem_replicate hx]
    obtain ⟨hy0, hy1⟩ := tpr1d_ok_mem t nmy nty ly hly vy hvy
    obtain ⟨hx0, hx1⟩ := tpr1d_ok_mem t nmx ntx lx hlx vx hvx
    exact ⟨mul_nonneg hy0 hx0, mul_le_one₀ hy1 hx0 hx1⟩

/-- Witness for C8 at `nmask = (4, 5)`, `ntap = (2, 2)`. -/
theorem taper_values_unit_witness :
    (0 < 2 ∧ 2 ≤ 4 / 2 ∧ 2 ≤ 5 / 2) ∧
    ((∀ l, hanningtaper 4 2 = Except.ok l → ∀ x ∈ l, 0 ≤ x ∧ x ≤ 1) ∧
    (∀ square, ∀ x ∈ cosinetaper 4 square, 0 ≤ x ∧ x ≤ 1) ∧
    (∀ nt t pf m e, taper2d nt 4 2 t pf = Except.ok (m, e) →
        ∀ row ∈ m, ∀ x ∈ row, 0 ≤ x ∧ x ≤ 1) ∧
    (∀ nt t pf arr e, taper3d nt (4, 5) (2, 2) t pf = Except.ok (arr, e) →
        ∀ plane ∈ arr, ∀ row ∈ plane, ∀ x ∈ row, 0 ≤ x ∧ x ≤ 1)) :=
  ⟨⟨by decide, by decide, by decide⟩,
    taper_values_unit 4 2 5 2 (by decide) (by decide) (by decide) (by decide)⟩

/-- Claim C9 counterexample. At `nt = 0`, `nmask = (1, 1)`,
`ntap = (0, 0)`, type `"hanning"`: with `plotflag` set, `taper3d` fails
with `IndexError` (the plot branch slices a size-0 third axis), while with
`plotflag` unset it returns an array — so the two runs differ and the
claim as stated (over every argument tuple) is false. -/
theorem taper_plotflag_counterexample :
    Except.map Prod.fst (taper3d 0 (1, 1) (0, 0) "hanning" true) ≠
      Except.map Prod.fst (taper3d 0 (1, 1) (0, 0) "hanning" false) := by
  have h1 : tpr1d "hanning" (1, 1).1 (0, 0).1 = Except.ok [(1 : ℝ)] := by
    rw [tpr1d_hanning]
    unfold hanningtaper npHanning
    simp
  have htrue := taper3d_err_index 0 (1, 1) (0, 0) "hanning" [(1 : ℝ)] [(1 : ℝ)]
    h1 h1 (by decide)
  have hfalse := taper3d_ok_false 0 (1, 1) (0, 0) "hanning" [(1 : ℝ)] [(1 : ℝ)] h1 h1
  rw [htrue, hfalse]
  simp [Except.map]

/-- Claim C9 (amended). The array returned by `taper2d` with `plotflag`
set equals the one returned with `plotflag` unset, for every argument
tuple; for `taper3d` the same holds for every argument tuple with
`nt ≥ 1` (at `nt = 0` the plot branch's middle-slice index `int(nt/2)`
is out of range and raises `IndexError` instead of returning). -/
theorem taper_plotflag_independent (nt nmask ntap : ℕ) (nmask2 ntap2 : ℕ × ℕ)
    (t : String) :
    (Except.map Prod.fst (taper2d nt nmask ntap t true) =
      Except.map Prod.fst (taper2d nt nmask ntap t false)) ∧
    (1 ≤ nt →
      Except.map Prod.fst (taper3d nt nmask2 ntap2 t true) =
        Except.map Prod.fst (taper3d nt nmask2 ntap2 t false)) := by
  constructor
  · cases hl : tpr1d t nmask ntap with
    | error err =>
        rw [taper2d_err nt nmask ntap t true err hl,
          taper2d_err nt nmask ntap t false err hl]
    | ok l =>
        rw [taper2d_ok nt nmask ntap t true l hl,
          taper2d_ok nt nmask ntap t false l hl]
        rfl
  · intro hnt
    have hg : nt / 2 < nt := Nat.div_lt_self (by omega) (by omega)
    cases hy : tpr1d t nmask2.1 ntap2.1 with
    | error err =>
        rw [taper3d_err_left nt nmask2 ntap2 t true err hy,
          taper3d_err_left nt nmask2 ntap2 t false err hy]
    | ok ly =>
        cases hx : tpr1d t nmask2.2 ntap2.2 with
        | error err =>
            rw [taper3d_err_right nt nmask2 ntap2 t true err ly hy hx,
              taper3d_err_right nt nmask2 ntap2 t false err ly hy hx]
        | ok lx =>
            rw [taper3d_ok_plot nt nmask2 ntap2 t ly lx hy hx hg,
              taper3d_ok_false nt nmask2 ntap2 t ly lx hy hx]
            rfl

/-- Witness for the amended C9 at `nt = 1`, `nmask = 2`, `ntap = 1`,
`nmask2 = (2, 2)`, `ntap2 = (1, 1)`, type `"hanning"`. -/
theorem taper_plotflag_independent_witness :
    (Except.map Prod.fst (taper2d 1 2 1 "hanning" true) =
      Except.map Prod.fst (taper2d 1 2 1 "hanning" false)) ∧
    (1 ≤ 1 ∧
      Except.map Prod.fst (taper3d 1 (2, 2) (1, 1) "hanning" true) =
        Except.map Prod.fst (taper3d 1 (2, 2) (1, 1) "hanning" false)) :=
  ⟨(taper_plotflag_independent 1 2 1 (2, 2) (1, 1) "hanning").1,
    by decide,
    (taper_plotflag_independent 1 2 1 (2, 2) (1, 1) "hanning").2 (by decide)⟩

end Tapers
